import Mathlib

/-!
Verification of the forex feature-engineering pipeline
(`src/data/feature_engineering.py`) against its natural-language
specification.

The pipeline is pandas code operating on float64 columns.  The embedding
models a float column as a function `ℕ → FV` over row indices, where `FV`
is the set of IEEE-754 values relevant to the source: `nan`, the two
infinities, and finite values (taken as exact rationals; every property
checked in this development is insensitive to rounding, but not to the
special values, whose propagation the source relies on).  Pandas
behaviours that the source exercises and that are captured here:

* arithmetic with a `nan` operand yields `nan`; `x / 0` is `±inf` for
  `x ≠ 0` and `nan` for `x = 0`; `100 / inf = 0`;
* every ordering comparison with a `nan` operand is `False`;
* `shift(k)` moves values by `k` rows, filling with `nan`;
* `pct_change(p)` is `s / s.shift(p) - 1`;
* `rolling(w).m()` (default `min_periods = w`) is `nan` while the window
  is incomplete or contains a `nan`;
* `np.where` / `np.select` build integer columns, never `nan`; a `nan`
  input makes every comparison condition `False`.

Signed zeros are not modelled: the only place the source produces a
negative zero is the `-delta.where(delta < 0, 0)` term inside
`calculate_rsi`, where it flips the sign of the intermediate `rs`
infinity but not the final RSI value (`100 - 100/(1 - inf) = 100 =
100 - 100/(1 + inf)`), so the unsigned-zero model agrees with the source
on every observable value.
-/

/-- Addition on `ℚ` through the normalizing smart constructor.  The
`Add ℚ` instance operation is `@[irreducible]` in this toolchain, which
blocks definitional evaluation of concrete pipeline runs; this is the
same function (see `qAdd_eq`, from `Rat.add_def`), stated reducibly. -/
def qAdd (a b : ℚ) : ℚ :=
  Rat.normalize (a.num * b.den + b.num * a.den) (a.den * b.den)
    (Nat.mul_ne_zero a.den_nz b.den_nz)

/-- Subtraction on `ℚ`, reducibly (see `qSub_eq`, from `Rat.sub_def`). -/
def qSub (a b : ℚ) : ℚ :=
  Rat.normalize (a.num * b.den - b.num * a.den) (a.den * b.den)
    (Nat.mul_ne_zero a.den_nz b.den_nz)

/-- Multiplication on `ℚ`, reducibly (see `qMul_eq`, from `Rat.mul_def`). -/
def qMul (a b : ℚ) : ℚ :=
  Rat.normalize (a.num * b.num) (a.den * b.den)
    (Nat.mul_ne_zero a.den_nz b.den_nz)

/-- Division on `ℚ`, reducibly (see `qDiv_eq`, from `Rat.div_def'`). -/
def qDiv (a b : ℚ) : ℚ := Rat.divInt (a.num * b.den) (a.den * b.num)

/-- Absolute value on `ℚ`, reducibly (see `qAbs_eq`). -/
def qAbs (a : ℚ) : ℚ := if a.num < 0 then -a else a

/-- An IEEE-754 double as the source manipulates it: `nan`, `+inf`,
`-inf`, or a finite value (modelled as an exact rational). -/
inductive FV where
  | nan : FV
  | pinf : FV
  | ninf : FV
  | fin : ℚ → FV
deriving DecidableEq, Repr

namespace FV

/-- `true` exactly on `nan` (pandas missing-value test, as used by `dropna`). -/
def isNaN : FV → Bool
  | .nan => true
  | _ => false

end FV

/-- IEEE negation. -/
def fvNeg : FV → FV
  | .nan => .nan
  | .pinf => .ninf
  | .ninf => .pinf
  | .fin a => .fin (-a)

/-- IEEE addition (exact on finite values). -/
def fvAdd : FV → FV → FV
  | .nan, _ => .nan
  | _, .nan => .nan
  | .pinf, .ninf => .nan
  | .ninf, .pinf => .nan
  | .pinf, _ => .pinf
  | _, .pinf => .pinf
  | .ninf, _ => .ninf
  | _, .ninf => .ninf
  | .fin a, .fin b => .fin (qAdd a b)

/-- IEEE subtraction. -/
def fvSub (a b : FV) : FV := fvAdd a (fvNeg b)

/-- IEEE multiplication. -/
def fvMul : FV → FV → FV
  | .nan, _ => .nan
  | _, .nan => .nan
  | .pinf, .pinf => .pinf
  | .pinf, .ninf => .ninf
  | .ninf, .pinf => .ninf
  | .ninf, .ninf => .pinf
  | .pinf, .fin b => if b = 0 then .nan else if 0 < b then .pinf else .ninf
  | .fin a, .pinf => if a = 0 then .nan else if 0 < a then .pinf else .ninf
  | .ninf, .fin b => if b = 0 then .nan else if 0 < b then .ninf else .pinf
  | .fin a, .ninf => if a = 0 then .nan else if 0 < a then .ninf else .pinf
  | .fin a, .fin b => .fin (qMul a b)

/-- IEEE division with an (unsigned) zero denominator behaving as `+0`:
`a / 0` is `+inf` for `a > 0`, `-inf` for `a < 0` and `nan` for `a = 0`,
exactly as numpy produces for these columns. -/
def fvDiv : FV → FV → FV
  | .nan, _ => .nan
  | _, .nan => .nan
  | .pinf, .pinf => .nan
  | .pinf, .ninf => .nan
  | .ninf, .pinf => .nan
  | .ninf, .ninf => .nan
  | .pinf, .fin b => if 0 ≤ b then .pinf else .ninf
  | .ninf, .fin b => if 0 ≤ b then .ninf else .pinf
  | .fin _, .pinf => .fin 0
  | .fin _, .ninf => .fin 0
  | .fin a, .fin b =>
      if b = 0 then (if a = 0 then .nan else if 0 < a then .pinf else .ninf)
      else .fin (qDiv a b)

/-- IEEE absolute value. -/
def fvAbs : FV → FV
  | .nan => .nan
  | .pinf => .pinf
  | .ninf => .pinf
  | .fin a => .fin (qAbs a)

/-- IEEE strict `<`: `false` whenever an operand is `nan`. -/
def fvLt : FV → FV → Bool
  | .nan, _ => false
  | _, .nan => false
  | .pinf, _ => false
  | _, .pinf => true
  | .ninf, .ninf => false
  | .ninf, _ => true
  | _, .ninf => false
  | .fin a, .fin b => decide (a < b)

/-- IEEE strict `>`. -/
def fvGt (a b : FV) : Bool := fvLt b a

/-- Maximum of two values skipping `nan` (`DataFrame.max(axis=1)` /
`concat(...).max(axis=1)`, whose default is `skipna=True`). -/
def nanmax2 : FV → FV → FV
  | .nan, b => b
  | a, .nan => a
  | a, b => if fvLt a b then b else a

/-- Minimum of two values skipping `nan`. -/
def nanmin2 : FV → FV → FV
  | .nan, b => b
  | a, .nan => a
  | a, b => if fvLt b a then b else a

/-- Maximum of three values skipping `nan` (the true-range reduction in
`calculate_atr`). -/
def nanmax3 (a b c : FV) : FV := nanmax2 (nanmax2 a b) c

/-- Strict (nan-propagating) binary maximum, as used inside a rolling
window with `min_periods = window` where any `nan` poisons the result. -/
def fvMax2 : FV → FV → FV
  | .nan, _ => .nan
  | _, .nan => .nan
  | a, b => if fvLt a b then b else a

/-- Strict (nan-propagating) binary minimum. -/
def fvMin2 : FV → FV → FV
  | .nan, _ => .nan
  | _, .nan => .nan
  | a, b => if fvLt b a then b else a

/-- `numpy.log` restricted to what the source feeds it.  Definedness is
exact (`log q` is finite iff `q > 0`, `-inf` at `0`, `nan` below); the
finite payload is a rational stand-in (`q - 1`) for the irrational true
value: no property stated in this development reads it, only whether the
entry is `nan`. -/
def fvLog : FV → FV
  | .nan => .nan
  | .pinf => .pinf
  | .ninf => .nan
  | .fin q => if 0 < q then .fin (qSub q 1) else if q = 0 then .ninf else .nan

/-- A raw (loader-produced) numeric column: every entry present and finite. -/
def finSeries (q : ℕ → ℚ) : ℕ → FV := fun t => .fin (q t)

/-- `Series.shift(k)` on a series of length `n`: row `t` receives the
value of row `t - k` when that row exists, else `nan`. -/
def shiftF (n : ℕ) (k : ℤ) (s : ℕ → FV) : ℕ → FV := fun t =>
  let j : ℤ := (t : ℤ) - k
  if 0 ≤ j ∧ j < (n : ℤ) then s j.toNat else .nan

/-- `Series.pct_change(p)`, i.e. `s / s.shift(p) - 1`.  (The default
`fill_method` pad is a no-op on the `nan`-free columns the source applies
this to.) -/
def pct_changeF (n : ℕ) (p : ℤ) (s : ℕ → FV) : ℕ → FV := fun t =>
  fvSub (fvDiv (s t) (shiftF n p s t)) (.fin 1)

/-- The length-`w` window ending at row `t` (meaningful when `w ≤ t + 1`). -/
def windowL (w : ℕ) (s : ℕ → FV) (t : ℕ) : List FV :=
  (List.range w).map (fun i => s (t + 1 - w + i))

/-- `rolling(w).mean()` with the default `min_periods = w`: `nan` while
the window is incomplete, and `nan` whenever the window contains a `nan`
(the fold propagates it). -/
def rollingMeanF (w : ℕ) (s : ℕ → FV) : ℕ → FV := fun t =>
  if w ≤ t + 1 then
    fvDiv ((windowL w s t).foldr fvAdd (.fin 0)) (.fin (mkRat (w : ℤ) 1))
  else .nan

/-- `rolling(w).max()` with the default `min_periods = w`. -/
def rollingMaxF (w : ℕ) (s : ℕ → FV) : ℕ → FV := fun t =>
  if w ≤ t + 1 then
    match windowL w s t with
    | [] => .nan
    | x :: xs => xs.foldl fvMax2 x
  else .nan

/-- `rolling(w).min()` with the default `min_periods = w`. -/
def rollingMinF (w : ℕ) (s : ℕ → FV) : ℕ → FV := fun t =>
  if w ≤ t + 1 then
    match windowL w s t with
    | [] => .nan
    | x :: xs => xs.foldl fvMin2 x
  else .nan

/-- Extract the finite payloads of a window; `none` if any entry is not
finite (in which case the pandas reduction is `nan` for the uses below). -/
def finList? : List FV → Option (List ℚ)
  | [] => some []
  | .fin q :: rest => (finList? rest).map (fun l => q :: l)
  | _ => none

/-- Sample variance of a list of values in the running-sums form
`(Σx² - (Σx)²/n) / (n - 1)` that a streaming implementation (pandas
`rolling.var`) computes; exact arithmetic makes it equal to the centered
form, proved below. -/
def varOfList (l : List ℚ) : ℚ :=
  let s1 := l.foldr qAdd 0
  let s2 := (l.map (fun x => qMul x x)).foldr qAdd 0
  qDiv (qSub s2 (qDiv (qMul s1 s1) (mkRat (l.length : ℤ) 1))) (qSub (mkRat (l.length : ℤ) 1) 1)

/-- `rolling(w).std()` with pandas' default `ddof = 1` (sample standard
deviation).  The true entry is the square root of the sample variance,
irrational in general; the finite payload recorded here is the variance
itself.  Every property in this development reads only (a) whether the
entry is `nan` and (b) whether the value is zero or positive, and
`Real.sqrt` preserves both (`√v = 0 ↔ v = 0`, `√v > 0 ↔ v > 0` on
`v ≥ 0`), so the substitution is observation-preserving. -/
def rollingStdF (w : ℕ) (s : ℕ → FV) : ℕ → FV := fun t =>
  if 2 ≤ w ∧ w ≤ t + 1 then
    match finList? (windowL w s t) with
    | some qs => .fin (varOfList qs)
    | none => .nan
  else .nan

/-- Mean absolute deviation of a window (the `lambda` inside
`calculate_cci`'s `rolling.apply`). -/
def madOfList (l : List ℚ) : ℚ :=
  let m := qDiv (l.foldr qAdd 0) (mkRat (l.length : ℤ) 1)
  qDiv ((l.map (fun x => qAbs (qSub x m))).foldr qAdd 0) (mkRat (l.length : ℤ) 1)

/-- `rolling(w).apply(lambda x: np.mean(np.abs(x - x.mean())))`. -/
def rollingMadF (w : ℕ) (s : ℕ → FV) : ℕ → FV := fun t =>
  if w ≤ t + 1 then
    match finList? (windowL w s t) with
    | some qs => .fin (madOfList qs)
    | none => .nan
  else .nan

/-- `ewm(span, adjust=False).mean()` on a `nan`-free series: seeded by
the first value, then `e t = α·s t + (1-α)·e (t-1)` with
`α = 2/(span+1)`. -/
def ewmMeanQ (span : ℕ) (s : ℕ → ℚ) : ℕ → ℚ
  | 0 => s 0
  | t + 1 =>
      qAdd (qMul (mkRat 2 (span + 1)) (s (t + 1)))
        (qMul (qSub 1 (mkRat 2 (span + 1))) (ewmMeanQ span s t))

/-! ## IndicatorLibrary (`calculate_*` functions of the source) -/

/-- `calculate_rsi`, the `delta = close.diff()` series. -/
def rsi_delta (n : ℕ) (close : ℕ → ℚ) : ℕ → FV := fun t =>
  fvSub (finSeries close t) (shiftF n 1 (finSeries close) t)

/-- `calculate_rsi`, the smoothed gain series
`delta.where(delta > 0, 0).rolling(period).mean()`.  Note `where` turns
the leading `nan` of `diff()` into a literal `0` (a `nan` condition
selects the replacement), so the rolling window is complete from row
`period - 1` on. -/
def rsi_gain (n : ℕ) (close : ℕ → ℚ) (period : ℕ) : ℕ → FV :=
  rollingMeanF period
    (fun t => if fvGt (rsi_delta n close t) (.fin 0) then rsi_delta n close t else .fin 0)

/-- `calculate_rsi`, the smoothed loss series
`(-delta.where(delta < 0, 0)).rolling(period).mean()`. -/
def rsi_loss (n : ℕ) (close : ℕ → ℚ) (period : ℕ) : ℕ → FV :=
  rollingMeanF period
    (fun t => fvNeg (if fvLt (rsi_delta n close t) (.fin 0) then rsi_delta n close t else .fin 0))

/-- `calculate_rsi`: `rs = gain/loss`, `rsi = 100 - 100/(1+rs)`. -/
def calculate_rsi (n : ℕ) (close : ℕ → ℚ) (period : ℕ) : ℕ → FV := fun t =>
  fvSub (.fin 100)
    (fvDiv (.fin 100)
      (fvAdd (.fin 1) (fvDiv (rsi_gain n close period t) (rsi_loss n close period t))))

/-- The positive delta at row `t` as an exact rational (`0` on row `0`,
where `diff` has no predecessor and `where` substitutes `0`). -/
def gainQ (close : ℕ → ℚ) (t : ℕ) : ℚ :=
  if t = 0 then 0
  else if close (t - 1) < close t then qSub (close t) (close (t - 1)) else 0

/-- The negated negative delta at row `t` as an exact rational. -/
def lossQ (close : ℕ → ℚ) (t : ℕ) : ℚ :=
  if t = 0 then 0
  else if close t < close (t - 1) then qSub (close (t - 1)) (close t) else 0

/-- The period-average gain at row `t` (meaningful when `p ≤ t + 1`). -/
def avgGainQ (close : ℕ → ℚ) (p t : ℕ) : ℚ :=
  qDiv (((List.range p).map (fun i => gainQ close (t + 1 - p + i))).foldr qAdd 0) (mkRat (p : ℤ) 1)

/-- The period-average loss at row `t` (meaningful when `p ≤ t + 1`). -/
def avgLossQ (close : ℕ → ℚ) (p t : ℕ) : ℚ :=
  qDiv (((List.range p).map (fun i => lossQ close (t + 1 - p + i))).foldr qAdd 0) (mkRat (p : ℤ) 1)

/-- `calculate_rsi` applied to a raw series given as a list (the series'
index is `0, …, close.length - 1`).  The source performs no input
validation: an empty series yields an empty result, and a series shorter
than the window yields `nan` entries. -/
def calculate_rsi_list (close : List ℚ) (period : ℕ) : List FV :=
  (List.range close.length).map
    (calculate_rsi close.length (fun i => close.getD i 0) period)

/-- Positional access into a raw list-series: `nan` off the end, which
is exactly how pandas aligns arithmetic between two `RangeIndex` series
of different lengths (union index, missing side `nan`). -/
def nthQ (s : List ℚ) (i : ℤ) : FV :=
  if h : 0 ≤ i ∧ i.toNat < s.length then .fin (s.get ⟨i.toNat, h.2⟩) else .nan

/-- `calculate_atr` at the list level, where `high`, `low` and `close`
may have different lengths: each binary operation aligns on the union of
the indices (`nan` where one side is missing), `concat(...).max(axis=1)`
skips `nan`s, and no error is ever raised. -/
def calculate_atr_list (high low close : List ℚ) (period : ℕ) : List FV :=
  let len := max high.length (max low.length close.length)
  let tr1 := fun t : ℕ => fvSub (nthQ high (t : ℤ)) (nthQ low (t : ℤ))
  let prevClose := fun t : ℕ => nthQ close ((t : ℤ) - 1)
  let tr2 := fun t : ℕ => fvAbs (fvSub (nthQ high (t : ℤ)) (prevClose t))
  let tr3 := fun t : ℕ => fvAbs (fvSub (nthQ low (t : ℤ)) (prevClose t))
  (List.range len).map (rollingMeanF period (fun t => nanmax3 (tr1 t) (tr2 t) (tr3 t)))

/-- `calculate_macd`, MACD line component (EMA fast − EMA slow); finite
on every row by construction, matching `ewm(adjust=False)` on a complete
close series. -/
def macd_lineQ (close : ℕ → ℚ) (fast slow : ℕ) : ℕ → ℚ := fun t =>
  qSub (ewmMeanQ fast close t) (ewmMeanQ slow close t)

/-- `calculate_macd`, signal line component. -/
def macd_signalQ (close : ℕ → ℚ) (fast slow signal : ℕ) : ℕ → ℚ :=
  ewmMeanQ signal (macd_lineQ close fast slow)

/-- `calculate_bollinger_bands`, rolling mean component. -/
def bollinger_sma (close : ℕ → ℚ) (period : ℕ) : ℕ → FV :=
  rollingMeanF period (finSeries close)

/-- `calculate_bollinger_bands`, rolling standard-deviation component
(`close.rolling(period).std()`, pandas default `ddof = 1`). -/
def bollinger_std (close : ℕ → ℚ) (period : ℕ) : ℕ → FV :=
  rollingStdF period (finSeries close)

/-- `calculate_atr`: true range as the skip-nan row maximum of
`high - low`, `|high - prevClose|`, `|low - prevClose|`, then a rolling
mean. -/
def calculate_atr (n : ℕ) (high low close : ℕ → ℚ) (period : ℕ) : ℕ → FV :=
  let closeF := finSeries close
  let tr1 := fun t => fvSub (.fin (high t)) (.fin (low t))
  let tr2 := fun t => fvAbs (fvSub (.fin (high t)) (shiftF n 1 closeF t))
  let tr3 := fun t => fvAbs (fvSub (.fin (low t)) (shiftF n 1 closeF t))
  rollingMeanF period (fun t => nanmax3 (tr1 t) (tr2 t) (tr3 t))

/-- `calculate_stochastic`, `%K` component. -/
def stoch_k (high low close : ℕ → ℚ) (period : ℕ) : ℕ → FV := fun t =>
  let ll := rollingMinF period (finSeries low) t
  let hh := rollingMaxF period (finSeries high) t
  fvDiv (fvMul (.fin 100) (fvSub (.fin (close t)) ll)) (fvSub hh ll)

/-- `calculate_stochastic`, `%D` component. -/
def stoch_d (high low close : ℕ → ℚ) (period : ℕ) : ℕ → FV :=
  rollingMeanF 3 (stoch_k high low close period)

/-- `calculate_cci`. -/
def calculate_cci (high low close : ℕ → ℚ) (period : ℕ) : ℕ → FV := fun t =>
  let tp := fun i => qDiv (qAdd (qAdd (high i) (low i)) (close i)) 3
  let tpF := finSeries tp
  let sma_tp := rollingMeanF period tpF t
  let mad := rollingMadF period tpF t
  fvDiv (fvSub (tpF t) sma_tp) (fvMul (.fin (mkRat 15 1000)) mad)

/-- `calculate_williams_r`. -/
def calculate_williams_r (high low close : ℕ → ℚ) (period : ℕ) : ℕ → FV := fun t =>
  let hh := rollingMaxF period (finSeries high) t
  let ll := rollingMinF period (finSeries low) t
  fvDiv (fvMul (.fin (-100)) (fvSub hh (.fin (close t)))) (fvSub hh ll)

/-- `calculate_momentum`. -/
def calculate_momentum (n : ℕ) (close : ℕ → ℚ) (period : ℕ) : ℕ → FV := fun t =>
  fvSub (.fin (close t)) (shiftF n (period : ℤ) (finSeries close) t)

/-- `calculate_roc`. -/
def calculate_roc (n : ℕ) (close : ℕ → ℚ) (period : ℕ) : ℕ → FV := fun t =>
  let shifted := shiftF n (period : ℤ) (finSeries close) t
  fvMul (fvDiv (fvSub (.fin (close t)) shifted) shifted) (.fin 100)

/-! ## TargetGenerator (`add_target_variables`) -/

/-- `Target_Direction`: `np.where(close.shift(-H) > close, 1, 0)` — an
integer column; on rows without a future bar the comparison against `nan`
is `False` and the entry is the integer `0`, never missing. -/
def target_direction (n H : ℕ) (close : ℕ → ℚ) (t : ℕ) : ℤ :=
  if fvGt (shiftF n (-(H : ℤ)) (finSeries close) t) (.fin (close t)) then 1 else 0

/-- `Target_Return`: the source's chained
`close.pct_change(periods=-H).shift(H).shift(-H)`. -/
def target_return (n H : ℕ) (close : ℕ → ℚ) : ℕ → FV :=
  shiftF n (-(H : ℤ)) (shiftF n (H : ℤ) (pct_changeF n (-(H : ℤ)) (finSeries close)))

/-- `Target_Close`: `close.shift(-H)`. -/
def target_close (n H : ℕ) (close : ℕ → ℚ) : ℕ → FV :=
  shiftF n (-(H : ℤ)) (finSeries close)

/-- `np.select(conditions, choices, default)`: first-match selection. -/
def npSelect : List (Bool × ℤ) → ℤ → ℤ
  | [], d => d
  | (c, v) :: rest, d => if c then v else npSelect rest d

/-- `Target_Direction_Multi` as a function of the row's `Target_Return`
value: the source's `np.select` over the four ordered strict comparisons,
`threshold = 0.001`, default `-2`. -/
def target_direction_multi_of (r : FV) : ℤ :=
  let threshold : ℚ := mkRat 1 1000
  npSelect
    [ (fvGt r (.fin (qMul threshold 2)), 2),
      (fvGt r (.fin threshold), 1),
      (fvGt r (.fin (-threshold)), 0),
      (fvGt r (.fin (qMul (-threshold) 2)), -1) ]
    (-2)

/-- `Target_Direction_Multi` column. -/
def target_direction_multi (n H : ℕ) (close : ℕ → ℚ) (t : ℕ) : ℤ :=
  target_direction_multi_of (target_return n H close t)

/-- The literal label the specification declares authoritative
(`Modelled from the spec`): percent change from `close[t]` to
`close[t+H]`, stored at row `t`, undefined on the last `H` rows. -/
def specTargetReturn (n H : ℕ) (close : ℕ → ℚ) (t : ℕ) : FV :=
  if t + H < n then .fin ((close (t + H) - close t) / close t) else .nan

/-- Mean of a list of rationals. -/
def meanOfList (l : List ℚ) : ℚ := l.foldr (· + ·) 0 / (l.length : ℚ)

/-- Modelled from the spec: the rolling *population* variance the spec
attributes to the Bollinger computation — centered sum of squares with
divisor equal to the period (the window length), not period − 1. -/
def popVarOfList (l : List ℚ) : ℚ :=
  (l.map (fun x => (x - meanOfList l) ^ 2)).foldr (· + ·) 0 / (l.length : ℚ)

/-! ## FeatureAssembler and PipelineDriver (`add_*`, `process_single_file`)

A raw input table is a `Bars` value: every loader-produced field is
present and finite (the loaders emit complete OHLCV rows), and the
calendar accessors (`dt.dayofweek`, `dt.month`, …) of the parsed `Date`
column are total functions of the timestamp, supplied here as data. -/

structure Bars where
  n : ℕ
  dateOrd : ℕ → ℤ
  open_ : ℕ → ℚ
  high : ℕ → ℚ
  low : ℕ → ℚ
  close : ℕ → ℚ
  volume : ℕ → ℚ
  dow : ℕ → ℤ
  dom : ℕ → ℤ
  month : ℕ → ℤ
  quarter : ℕ → ℤ
  year : ℕ → ℤ
  week : ℕ → ℤ
  mstart : ℕ → Bool
  mend : ℕ → Bool
  qstart : ℕ → Bool
  qend : ℕ → Bool

/-- The `Return` column (`close.pct_change()`), reused by the volatility
and lag features. -/
def returnCol (b : Bars) : ℕ → FV := pct_changeF b.n 1 (finSeries b.close)

/-- The `RSI` column. -/
def rsiCol (b : Bars) : ℕ → FV := calculate_rsi b.n b.close 14

/-- A simple moving average of the close over `p` rows (`SMA_p`). -/
def smaCol (b : Bars) (p : ℕ) : ℕ → FV := rollingMeanF p (finSeries b.close)

/-- The six raw columns carried through from the loader. -/
def rawCols (b : Bars) : List (ℕ → FV) :=
  [fun t => FV.fin ((b.dateOrd t : ℚ)), finSeries b.open_, finSeries b.high,
   finSeries b.low, finSeries b.close, finSeries b.volume]

/-- `add_price_features`. -/
def priceCols (b : Bars) : List (ℕ → FV) :=
  let closeF := finSeries b.close
  let openF := finSeries b.open_
  let highF := finSeries b.high
  let lowF := finSeries b.low
  let prevCloseF := shiftF b.n 1 closeF
  let logRet := fun t => fvLog (fvDiv (closeF t) (prevCloseF t))
  let priceChange := fun t => fvSub (closeF t) (openF t)
  let priceChangePct := fun t =>
    fvMul (fvDiv (fvSub (closeF t) (openF t)) (openF t)) (.fin 100)
  let rangeC := fun t => fvSub (highF t) (lowF t)
  let body := fun t => fvAbs (fvSub (closeF t) (openF t))
  let bodyPct := fun t => fvDiv (body t) (rangeC t)
  let upperShadow := fun t => fvSub (highF t) (nanmax2 (openF t) (closeF t))
  let lowerShadow := fun t => fvSub (nanmin2 (openF t) (closeF t)) (lowF t)
  let candleColor := fun t => FV.fin (if fvGt (closeF t) (openF t) then (1 : ℚ) else 0)
  let gap := fun t => fvSub (openF t) (prevCloseF t)
  let gapPct := fun t => fvMul (fvDiv (gap t) (prevCloseF t)) (.fin 100)
  let hlRatio := fun t => fvDiv (highF t) (lowF t)
  let closePos := fun t => fvDiv (fvSub (closeF t) (lowF t)) (fvSub (highF t) (lowF t))
  [returnCol b, logRet, priceChange, priceChangePct, rangeC, body, bodyPct,
   upperShadow, lowerShadow, candleColor, gap, gapPct,
   rollingStdF 5 (returnCol b), rollingStdF 10 (returnCol b),
   rollingStdF 20 (returnCol b), hlRatio, closePos]

/-- `add_technical_indicators`, all unconditional columns (the moving
averages and their crossovers, which are gated on the table length, are
in `maCols`). -/
def techCols (b : Bars) : List (ℕ → FV) :=
  let rsi := rsiCol b
  let rsiOver := fun t => FV.fin (if fvGt (rsi t) (.fin 70) then (1 : ℚ) else 0)
  let rsiUnder := fun t => FV.fin (if fvLt (rsi t) (.fin 30) then (1 : ℚ) else 0)
  let macd := fun t => FV.fin (macd_lineQ b.close 12 26 t)
  let macdSig := fun t => FV.fin (macd_signalQ b.close 12 26 9 t)
  let macdHist := fun t =>
    FV.fin (qSub (macd_lineQ b.close 12 26 t) (macd_signalQ b.close 12 26 9 t))
  let macdCross := fun t =>
    FV.fin (if macd_signalQ b.close 12 26 9 t < macd_lineQ b.close 12 26 t then (1 : ℚ) else -1)
  let sma20 := bollinger_sma b.close 20
  let std20 := bollinger_std b.close 20
  let bbUpper := fun t => fvAdd (sma20 t) (fvMul (std20 t) (.fin 2))
  let bbLower := fun t => fvSub (sma20 t) (fvMul (std20 t) (.fin 2))
  let bbWidth := fun t => fvDiv (fvSub (bbUpper t) (bbLower t)) (sma20 t)
  let bbPos := fun t =>
    fvDiv (fvSub (.fin (b.close t)) (bbLower t)) (fvSub (bbUpper t) (bbLower t))
  let atr := calculate_atr b.n b.high b.low b.close 14
  let atrPct := fun t => fvMul (fvDiv (atr t) (.fin (b.close t))) (.fin 100)
  [rsi, rsiOver, rsiUnder, macd, macdSig, macdHist, macdCross,
   bbUpper, sma20, bbLower, bbWidth, bbPos, atr, atrPct,
   stoch_k b.high b.low b.close 14, stoch_d b.high b.low b.close 14,
   calculate_cci b.high b.low b.close 20, calculate_williams_r b.high b.low b.close 14,
   calculate_momentum b.n b.close 10, calculate_roc b.n b.close 10]

/-- The moving-average block of `add_technical_indicators`: for each
period `p` with `len(df) > p`, the columns `SMA_p`, `EMA_p` and
`Close_vs_SMA_p`, then the two crossover columns when their operands
exist. -/
def maCols (b : Bars) : List (ℕ → FV) :=
  ((([7, 14, 21, 50, 100, 200] : List ℕ).filter (fun p => p < b.n)).map (fun p =>
      [smaCol b p,
       fun t => FV.fin (ewmMeanQ p b.close t),
       fun t => fvMul (fvSub (fvDiv (.fin (b.close t)) (smaCol b p t)) (.fin 1)) (.fin 100)])).flatten
  ++ (if 21 < b.n then
        [fun t => FV.fin (if fvGt (smaCol b 7 t) (smaCol b 21 t) then (1 : ℚ) else -1)]
      else [])
  ++ (if 200 < b.n then
        [fun t => FV.fin (if fvGt (smaCol b 50 t) (smaCol b 200 t) then (1 : ℚ) else -1)]
      else [])

/-- `add_lagged_features`. -/
def lagCols (b : Bars) : List (ℕ → FV) :=
  ((([1, 2, 3, 5, 7, 14, 21] : List ℕ).filter (fun l => l < b.n)).map (fun l =>
      [shiftF b.n (l : ℤ) (finSeries b.close), shiftF b.n (l : ℤ) (returnCol b)])).flatten
  ++ (([1, 3, 5] : List ℕ).map (fun l => shiftF b.n (l : ℤ) (rsiCol b)))
  ++ ((([3, 5, 10, 20] : List ℕ).filter (fun p => p < b.n)).map
      (fun p => pct_changeF b.n (p : ℤ) (finSeries b.close)))
  ++ ((([5, 10, 20] : List ℕ).filter (fun w => w < b.n)).map (fun w =>
      [rollingMeanF w (finSeries b.close), rollingStdF w (finSeries b.close),
       rollingMinF w (finSeries b.close), rollingMaxF w (finSeries b.close)])).flatten

/-- `add_time_features`.  Every calendar accessor is a total function of
the (valid) timestamp, so these columns are never `nan`; the irrational
sine/cosine payloads are rational stand-ins, unread by any property
here. -/
def timeCols (b : Bars) : List (ℕ → FV) :=
  [fun t => FV.fin ((b.dow t : ℚ)),
   fun t => FV.fin ((b.dom t : ℚ)),
   fun t => FV.fin ((b.month t : ℚ)),
   fun t => FV.fin ((b.quarter t : ℚ)),
   fun t => FV.fin ((b.year t : ℚ)),
   fun t => FV.fin ((b.week t : ℚ)),
   fun t => FV.fin (if b.dow t = 0 then (1 : ℚ) else 0),
   fun t => FV.fin (if b.dow t = 4 then (1 : ℚ) else 0),
   fun t => FV.fin (if b.mstart t then (1 : ℚ) else 0),
   fun t => FV.fin (if b.mend t then (1 : ℚ) else 0),
   fun t => FV.fin (if b.qstart t then (1 : ℚ) else 0),
   fun t => FV.fin (if b.qend t then (1 : ℚ) else 0),
   fun t => FV.fin ((b.dow t : ℚ) / 7),
   fun t => FV.fin ((b.dow t : ℚ) / 7 + 1),
   fun t => FV.fin ((b.month t : ℚ) / 12),
   fun t => FV.fin ((b.month t : ℚ) / 12 + 1)]

/-- `add_target_variables` (the two integer label columns are cast into
the table as finite values, which they always are). -/
def targetCols (b : Bars) (H : ℕ) : List (ℕ → FV) :=
  [fun t => FV.fin ((target_direction b.n H b.close t : ℚ)),
   target_return b.n H b.close,
   target_close b.n H b.close,
   fun t => FV.fin ((target_direction_multi b.n H b.close t : ℚ))]

/-- Every column of the fully assembled table.  `dropna` is insensitive
to column order, so the longest-warm-up column and the trailing label
column are listed (redundantly) first, which keeps concrete evaluation
of the row filter cheap without changing its value. -/
def allCols (b : Bars) (H : ℕ) : List (ℕ → FV) :=
  (if 200 < b.n then [smaCol b 200] else [])
  ++ [target_return b.n H b.close, rsiCol b]
  ++ rawCols b ++ priceCols b ++ techCols b ++ maCols b ++ lagCols b
  ++ timeCols b ++ targetCols b H

/-- Row `t` contains at least one missing value among all columns. -/
def rowHasNaN (b : Bars) (H : ℕ) (t : ℕ) : Bool :=
  (allCols b H).any (fun c => (c t).isNaN)

/-- The number of rows surviving `process_single_file`'s single trimming
step `df.dropna()`. -/
def retainedRows (b : Bars) (H : ℕ) : ℕ :=
  ((List.range b.n).filter (fun t => !rowHasNaN b H t)).length

/-- The spec's end-to-end scenario shape: a 300-row daily series with a
strictly rising close (constant increment per bar), a well-formed candle
around each close and arbitrary (valid) calendar data. -/
def incBars : Bars where
  n := 300
  dateOrd := fun t => (t : ℤ)
  open_ := fun t => mkRat (99 + (t : ℤ)) 1
  high := fun t => mkRat (101 + (t : ℤ)) 1
  low := fun t => mkRat (98 + (t : ℤ)) 1
  close := fun t => mkRat (100 + (t : ℤ)) 1
  volume := fun _ => 0
  dow := fun t => (t : ℤ) % 7
  dom := fun t => 1 + (t : ℤ) % 28
  month := fun t => 1 + ((t : ℤ) / 28) % 12
  quarter := fun t => 1 + ((t : ℤ) / 84) % 4
  year := fun t => 2020 + (t : ℤ) / 336
  week := fun t => 1 + ((t : ℤ) / 7) % 52
  mstart := fun t => (t : ℤ) % 28 = 0
  mend := fun t => (t : ℤ) % 28 = 27
  qstart := fun t => (t : ℤ) % 84 = 0
  qend := fun t => (t : ℤ) % 84 = 83

/-- A 300-row series of constant prices (every OHLC field equal), the
same shape and configuration as the spec scenario. -/
def constBars : Bars where
  n := 300
  dateOrd := fun t => (t : ℤ)
  open_ := fun _ => 2
  high := fun _ => 2
  low := fun _ => 2
  close := fun _ => 2
  volume := fun _ => 0
  dow := fun t => (t : ℤ) % 7
  dom := fun t => 1 + (t : ℤ) % 28
  month := fun t => 1 + ((t : ℤ) / 28) % 12
  quarter := fun t => 1 + ((t : ℤ) / 84) % 4
  year := fun t => 2020 + (t : ℤ) / 336
  week := fun t => 1 + ((t : ℤ) / 7) % 52
  mstart := fun t => (t : ℤ) % 28 = 0
  mend := fun t => (t : ℤ) % 28 = 27
  qstart := fun t => (t : ℤ) % 84 = 0
  qend := fun t => (t : ℤ) % 84 = 83

/-- A two-bar close series `1, 2`. -/
def closeTwoBars : ℕ → ℚ := fun t => if t = 0 then 1 else 2

/-- A two-bar close series `5, 7`. -/
def closeFiveSeven : ℕ → ℚ := fun t => if t = 0 then 5 else 7

/-- An alternating close series `1, 2, 1, 2, …`. -/
def altClose : ℕ → ℚ := fun t => if t % 2 = 0 then 1 else 2

/-- The natural close series `0, 1, 2, …`. -/
def natClose : ℕ → ℚ := fun t => mkRat (t : ℤ) 1

/-- The `RSI_overbought` flag column, `(df['RSI'] > 70).astype(int)`
with the configured `RSI_PERIOD = 14`. -/
def rsi_overbought (n : ℕ) (close : ℕ → ℚ) (t : ℕ) : ℤ :=
  if fvGt (calculate_rsi n close 14 t) (.fin 70) then 1 else 0

/-- The `RSI_oversold` flag column, `(df['RSI'] < 30).astype(int)`. -/
def rsi_oversold (n : ℕ) (close : ℕ → ℚ) (t : ℕ) : ℤ :=
  if fvLt (calculate_rsi n close 14 t) (.fin 30) then 1 else 0

/-! ## Bridging lemmas: the reducible arithmetic is the standard one -/

theorem qAdd_eq (a b : ℚ) : qAdd a b = a + b := (Rat.add_def a b).symm

theorem qSub_eq (a b : ℚ) : qSub a b = a - b := (Rat.sub_def a b).symm

theorem qMul_eq (a b : ℚ) : qMul a b = a * b := (Rat.mul_def a b).symm

theorem qDiv_eq (a b : ℚ) : qDiv a b = a / b := (Rat.div_def' a b).symm

theorem qAbs_eq (a : ℚ) : qAbs a = |a| := by
  unfold qAbs
  by_cases h : a.num < 0
  · have ha : a < 0 := by
      by_contra hle
      exact absurd (Rat.num_nonneg.mpr (not_lt.mp hle)) (not_le.mpr h)
    rw [if_pos h, abs_of_neg ha]
  · rw [if_neg h, abs_of_nonneg (Rat.num_nonneg.mp (not_lt.mp h))]

theorem mkRat_intCast (n : ℤ) : mkRat n 1 = (n : ℚ) := Rat.mkRat_one n

theorem mkRat_natCast (w : ℕ) : mkRat (w : ℤ) 1 = (w : ℚ) := by
  rw [mkRat_intCast]; push_cast; rfl

theorem foldr_qAdd_eq (l : List ℚ) (z : ℚ) : l.foldr qAdd z = l.foldr (· + ·) z := by
  induction l with
  | nil => rfl
  | cons a as ih => simp only [List.foldr_cons, qAdd_eq, ih]

/-! ## Helper lemmas about the series combinators -/

theorem shiftF_in (n : ℕ) (k : ℤ) (s : ℕ → FV) (t : ℕ)
    (h1 : 0 ≤ (t : ℤ) - k) (h2 : (t : ℤ) - k < (n : ℤ)) :
    shiftF n k s t = s ((t : ℤ) - k).toNat := by
  unfold shiftF
  exact if_pos ⟨h1, h2⟩

theorem shiftF_out (n : ℕ) (k : ℤ) (s : ℕ → FV) (t : ℕ)
    (h : ¬ (0 ≤ (t : ℤ) - k ∧ (t : ℤ) - k < (n : ℤ))) :
    shiftF n k s t = .nan := by
  unfold shiftF
  exact if_neg h

/-- The chained shifts of `Target_Return` leave the trailing `H` rows
without a value: the outermost `shift(-H)` reads past the series end. -/
theorem target_return_tail (n H : ℕ) (close : ℕ → ℚ) (t : ℕ) (h : n ≤ t + H) :
    target_return n H close t = .nan := by
  unfold target_return
  apply shiftF_out
  intro hc
  omega

theorem target_close_eq (n H : ℕ) (close : ℕ → ℚ) (t : ℕ) :
    target_close n H close t = if t + H < n then .fin (close (t + H)) else .nan := by
  unfold target_close
  by_cases h : t + H < n
  · rw [if_pos h, shiftF_in n _ _ t (by omega) (by omega)]
    have he : ((t : ℤ) - -(H : ℤ)).toNat = t + H := by omega
    rw [he]
    rfl
  · rw [if_neg h]
    apply shiftF_out
    intro hc
    omega

/-! ## C1: the regression label -/

/-- C1 (code bug): at the failing input `close = [1, 2]`, `H = 1`, the
source's chained `pct_change(-H).shift(H).shift(-H)` stores at row 0 the
value `close[0]/close[1] - 1 = -1/2` — the percent change from the
*future* bar back to the current one — whereas the label the spec (and
the code's own `Next Return` comment and `Up`/`Down` label names) intend
is `(close[1] - close[0])/close[0] = 1`.  On this rising bar the code's
own labels contradict each other: the binary direction label says up
(`1`) while the multi-class label classifies the stored return as strong
down (`-2`).  The definedness part of the claim does hold: the label is
missing exactly on the last `H` rows. -/
theorem c1_target_return_inverted :
    target_return 2 1 closeTwoBars 0 = .fin (-(1 / 2))
    ∧ specTargetReturn 2 1 closeTwoBars 0 = .fin 1
    ∧ target_return 2 1 closeTwoBars 0 ≠ specTargetReturn 2 1 closeTwoBars 0
    ∧ target_return 2 1 closeTwoBars 1 = .nan
    ∧ target_direction 2 1 closeTwoBars 0 = 1
    ∧ target_direction_multi 2 1 closeTwoBars 0 = -2 := by
  refine ⟨by decide!, ?_, by decide!, by decide!, by decide!, by decide!⟩
  unfold specTargetReturn closeTwoBars
  norm_num

/-! ## C2: the multi-class thresholds -/

/-- C2 counterexample: a return exactly equal to the threshold
`θ = 0.001` is *not* classified as up — the strict comparison `r > θ`
fails and the selection falls through to the neutral bucket `0`, not `1`
as the claim's instance asserts. -/
theorem c2_boundary_theta_is_neutral :
    target_direction_multi_of (.fin (1 / 1000)) = 0
    ∧ target_direction_multi_of (.fin (1 / 1000)) ≠ 1 := by
  constructor <;> decide!

/-- C2 (amended): the multi-class label is the first-match evaluation of
the ordered strict comparisons with `θ = 0.001` — `r > 2θ → 2`, else
`r > θ → 1`, else `r > -θ → 0`, else `r > -2θ → -1`, else `-2` — and on
the spec's boundary instances `0.0021 → 2`, `0 → 0`, `-0.0015 → -1`,
`-0.002 → -2`; but `r = 0.001` falls into the *neutral* bucket `0`, one
bucket below the claimed `up`, because the `r > θ` comparison is strict. -/
theorem c2_multiclass_first_match :
    (∀ r : ℚ, target_direction_multi_of (.fin r) =
        (if 2 * (1 / 1000 : ℚ) < r then 2
         else if (1 / 1000 : ℚ) < r then 1
         else if -(1 / 1000 : ℚ) < r then 0
         else if -(2 * (1 / 1000 : ℚ)) < r then -1
         else -2))
    ∧ target_direction_multi_of (.fin (21 / 10000)) = 2
    ∧ target_direction_multi_of (.fin (1 / 1000)) = 0
    ∧ target_direction_multi_of (.fin 0) = 0
    ∧ target_direction_multi_of (.fin (-(15 / 10000))) = -1
    ∧ target_direction_multi_of (.fin (-(1 / 500))) = -2 := by
  refine ⟨fun r => ?_, by decide!, by decide!, by decide!, by decide!, by decide!⟩
  unfold target_direction_multi_of fvGt fvLt
  norm_num [Rat.mkRat_eq_div, qMul_eq]
  simp only [npSelect, Bool.false_eq_true, decide_eq_true_eq]

/-! ## C3: the binary direction label -/

/-- C3 counterexample: on the two-bar series `1, 2` with `H = 1`, the
final row's direction label is the integer `0` — a defined value, not
the missing value the claim asserts for the last `H` rows
(`np.where` maps the false `nan > close` comparison to `0`). -/
theorem c3_tail_direction_is_zero :
    target_direction 2 1 closeTwoBars 1 = 0
    ∧ ¬(target_direction 2 1 closeTwoBars 1 ≠ 0 ∧ target_direction 2 1 closeTwoBars 1 ≠ 1) := by
  constructor <;> decide!

/-- C3 (amended): the binary direction label equals `1` if
`close[t+H] > close[t]` and `0` otherwise on every row with a future
bar; on the last `H` rows it is *also defined* and equals `0` (the
comparison against the missing future value is false), rather than
undefined; hence for a strictly increasing close series it is `1` on
every row except the last `H`, where it is `0`. -/
theorem c3_direction_total (n H : ℕ) (close : ℕ → ℚ) (t : ℕ)
    (_ht : t < n) (hH : 1 ≤ H) :
    (t + H < n → target_direction n H close t = if close t < close (t + H) then 1 else 0)
    ∧ (n ≤ t + H → target_direction n H close t = 0)
    ∧ (StrictMono close → t + H < n → target_direction n H close t = 1) := by
  have hin : t + H < n →
      target_direction n H close t = if close t < close (t + H) then 1 else 0 := by
    intro h
    unfold target_direction
    rw [shiftF_in n _ _ t (by omega) (by omega)]
    have he : ((t : ℤ) - -(H : ℤ)).toNat = t + H := by omega
    rw [he]
    unfold finSeries fvGt fvLt
    by_cases hc : close t < close (t + H)
    · rw [if_pos (by simpa using hc), if_pos hc]
    · rw [if_neg (by simpa using hc), if_neg hc]
  refine ⟨hin, ?_, ?_⟩
  · intro h
    unfold target_direction
    rw [shiftF_out n _ _ t (by intro hc; omega)]
    rfl
  · intro hmono h
    rw [hin h, if_pos (hmono (by omega))]

/-- Witness for `c3_direction_total` at the strictly increasing series
`0, 1, 2` with `H = 1`: the final row's label evaluates to `0`. -/
theorem c3_direction_total_witness :
    target_direction 3 1 natClose 2 = 0 :=
  (c3_direction_total 3 1 natClose 2 (by decide) (by decide)).2.1 (by decide)

/-! ## Helper lemmas for the RSI characterization -/

theorem foldr_fvAdd_fin (l : List ℕ) (s : ℕ → FV) (q : ℕ → ℚ)
    (h : ∀ i ∈ l, s i = .fin (q i)) :
    (l.map s).foldr fvAdd (.fin 0) = .fin ((l.map q).foldr (· + ·) 0) := by
  induction l with
  | nil => rfl
  | cons a as ih =>
      simp only [List.map_cons, List.foldr_cons]
      rw [h a (List.mem_cons_self a as), ih (fun i hi => h i (List.mem_cons_of_mem a hi))]
      simp [fvAdd, qAdd_eq]

/-- A rolling mean over a window of present values is the present mean. -/
theorem rollingMeanF_fin (w : ℕ) (s : ℕ → FV) (q : ℕ → ℚ) (t : ℕ)
    (hw : w ≤ t + 1) (hw0 : 0 < w) (h : ∀ i, i ≤ t → s i = .fin (q i)) :
    rollingMeanF w s t
      = .fin (((List.range w).map (fun i => q (t + 1 - w + i))).foldr (· + ·) 0 / (w : ℚ)) := by
  unfold rollingMeanF windowL
  rw [if_pos hw]
  rw [foldr_fvAdd_fin (List.range w) (fun i => s (t + 1 - w + i)) (fun i => q (t + 1 - w + i))
      (fun i hi => h _ (by have := List.mem_range.mp hi; omega))]
  rw [mkRat_natCast]
  have hne : (w : ℚ) ≠ 0 := Nat.cast_ne_zero.mpr (by omega)
  simp [fvDiv, hne, qDiv_eq]

theorem rsi_gain_entry (n : ℕ) (close : ℕ → ℚ) (i : ℕ) (hi : i < n) :
    (if fvGt (rsi_delta n close i) (.fin 0) then rsi_delta n close i else .fin 0)
      = .fin (gainQ close i) := by
  unfold rsi_delta gainQ
  rcases Nat.eq_zero_or_pos i with h0 | h0
  · subst h0
    rw [shiftF_out n 1 _ 0 (by intro hc; omega)]
    rfl
  · rw [shiftF_in n 1 _ i (by omega) (by omega)]
    have he : ((i : ℤ) - 1).toNat = i - 1 := by omega
    rw [he]
    have hval : fvSub (finSeries close i) (finSeries close (i - 1))
        = .fin (close i - close (i - 1)) := by
      simp [finSeries, fvSub, fvAdd, fvNeg, qAdd_eq, sub_eq_add_neg]
    rw [hval, if_neg (by omega : ¬ i = 0)]
    simp only [fvGt, fvLt, decide_eq_true_eq, qSub_eq]
    by_cases hc : close (i - 1) < close i
    · rw [if_pos (by simpa [sub_pos] using hc), if_pos hc]
    · rw [if_neg (by simpa [sub_pos] using hc), if_neg hc]

theorem rsi_loss_entry (n : ℕ) (close : ℕ → ℚ) (i : ℕ) (hi : i < n) :
    fvNeg (if fvLt (rsi_delta n close i) (.fin 0) then rsi_delta n close i else .fin 0)
      = .fin (lossQ close i) := by
  unfold rsi_delta lossQ
  rcases Nat.eq_zero_or_pos i with h0 | h0
  · subst h0
    rw [shiftF_out n 1 _ 0 (by intro hc; omega)]
    show FV.fin (-(0 : ℚ)) = FV.fin 0
    norm_num
  · rw [shiftF_in n 1 _ i (by omega) (by omega)]
    have he : ((i : ℤ) - 1).toNat = i - 1 := by omega
    rw [he]
    have hval : fvSub (finSeries close i) (finSeries close (i - 1))
        = .fin (close i - close (i - 1)) := by
      simp [finSeries, fvSub, fvAdd, fvNeg, qAdd_eq, sub_eq_add_neg]
    rw [hval, if_neg (by omega : ¬ i = 0)]
    simp only [fvLt, decide_eq_true_eq, qSub_eq]
    by_cases hc : close i < close (i - 1)
    · rw [if_pos (sub_neg.mpr hc), if_pos hc]
      show FV.fin (-(close i - close (i - 1))) = _
      rw [neg_sub]
    · rw [if_neg (by simpa [sub_neg] using hc), if_neg hc]
      show FV.fin (-(0 : ℚ)) = FV.fin 0
      norm_num

theorem avgGainQ_eq (close : ℕ → ℚ) (p t : ℕ) :
    avgGainQ close p t
      = ((List.range p).map (fun i => gainQ close (t + 1 - p + i))).foldr (· + ·) 0 / (p : ℚ) := by
  unfold avgGainQ
  rw [qDiv_eq, foldr_qAdd_eq, mkRat_natCast]

theorem avgLossQ_eq (close : ℕ → ℚ) (p t : ℕ) :
    avgLossQ close p t
      = ((List.range p).map (fun i => lossQ close (t + 1 - p + i))).foldr (· + ·) 0 / (p : ℚ) := by
  unfold avgLossQ
  rw [qDiv_eq, foldr_qAdd_eq, mkRat_natCast]

theorem rsi_gain_fin (n p : ℕ) (close : ℕ → ℚ) (t : ℕ)
    (ht : t < n) (hp : 0 < p) (hw : p ≤ t + 1) :
    rsi_gain n close p t = .fin (avgGainQ close p t) := by
  unfold rsi_gain
  rw [rollingMeanF_fin p _ (gainQ close) t hw hp
      (fun i hi => rsi_gain_entry n close i (by omega)), avgGainQ_eq]

theorem rsi_loss_fin (n p : ℕ) (close : ℕ → ℚ) (t : ℕ)
    (ht : t < n) (hp : 0 < p) (hw : p ≤ t + 1) :
    rsi_loss n close p t = .fin (avgLossQ close p t) := by
  unfold rsi_loss
  rw [rollingMeanF_fin p _ (lossQ close) t hw hp
      (fun i hi => rsi_loss_entry n close i (by omega)), avgLossQ_eq]

theorem gainQ_nonneg (close : ℕ → ℚ) (i : ℕ) : 0 ≤ gainQ close i := by
  unfold gainQ
  split_ifs with h1 h2
  · exact le_refl 0
  · rw [qSub_eq]; exact sub_nonneg.mpr h2.le
  · exact le_refl 0

theorem lossQ_nonneg (close : ℕ → ℚ) (i : ℕ) : 0 ≤ lossQ close i := by
  unfold lossQ
  split_ifs with h1 h2
  · exact le_refl 0
  · rw [qSub_eq]; exact sub_nonneg.mpr h2.le
  · exact le_refl 0

theorem foldr_add_nonneg (l : List ℚ) (h : ∀ x ∈ l, 0 ≤ x) : 0 ≤ l.foldr (· + ·) 0 := by
  induction l with
  | nil => exact le_refl 0
  | cons a as ih =>
      simp only [List.foldr_cons]
      have := h a (List.mem_cons_self a as)
      have := ih (fun x hx => h x (List.mem_cons_of_mem a hx))
      linarith

theorem avgGainQ_nonneg (close : ℕ → ℚ) (p t : ℕ) : 0 ≤ avgGainQ close p t := by
  rw [avgGainQ_eq]
  apply div_nonneg _ (by positivity)
  apply foldr_add_nonneg
  intro x hx
  obtain ⟨i, _, rfl⟩ := List.mem_map.mp hx
  exact gainQ_nonneg close _

theorem avgLossQ_nonneg (close : ℕ → ℚ) (p t : ℕ) : 0 ≤ avgLossQ close p t := by
  rw [avgLossQ_eq]
  apply div_nonneg _ (by positivity)
  apply foldr_add_nonneg
  intro x hx
  obtain ⟨i, _, rfl⟩ := List.mem_map.mp hx
  exact lossQ_nonneg close _

/-- An incomplete window makes both smoothed series, and hence the RSI,
missing. -/
theorem calculate_rsi_incomplete (n p : ℕ) (close : ℕ → ℚ) (t : ℕ) (h : t + 1 < p) :
    calculate_rsi n close p t = .nan := by
  unfold calculate_rsi rsi_gain rsi_loss rollingMeanF
  rw [if_neg (by omega), if_neg (by omega)]
  rfl

/-- The float arithmetic of `100 - 100/(1 + g/l)` on nonnegative
averages: `0/0` is missing, `g/0` with `g > 0` is an infinity that
collapses to the value `100`, and a nonzero `l` gives the finite
formula. -/
theorem rsi_arith_cases (g l : ℚ) (hg0 : 0 ≤ g) (hl0 : 0 ≤ l) :
    fvSub (.fin 100) (fvDiv (.fin 100) (fvAdd (.fin 1) (fvDiv (.fin g) (.fin l))))
      = (if l = 0 then (if g = 0 then .nan else .fin 100)
         else .fin (100 - 100 / (1 + g / l))) := by
  by_cases hl : l = 0
  · subst hl
    by_cases hg : g = 0
    · subst hg
      simp [fvDiv, fvAdd, fvSub, fvNeg]
    · have hgpos : 0 < g := lt_of_le_of_ne hg0 (Ne.symm hg)
      simp [fvDiv, fvAdd, fvSub, fvNeg, hg, hgpos, qAdd_eq]
  · have hne : qAdd 1 (qDiv g l) ≠ 0 := by
      rw [qAdd_eq, qDiv_eq]
      have : (0 : ℚ) ≤ g / l := div_nonneg hg0 hl0
      intro hc
      linarith
    simp only [fvDiv, fvAdd, fvSub, fvNeg, if_neg hl, if_neg hne]
    simp [qAdd_eq, qDiv_eq, ← sub_eq_add_neg]

/-! ## C5: the RSI definedness contract -/

/-- C5 counterexample: on a strictly increasing 14-bar series the
period-average loss at row 13 is exactly zero, yet the RSI is *defined*
and equals `100` (the `gain/0` infinity propagates to
`100 - 100/inf = 100`), contradicting the claim that a zero average
loss makes the RSI undefined. -/
theorem c5_zero_loss_rsi_is_100 :
    avgLossQ natClose 14 13 = 0 ∧ calculate_rsi 14 natClose 14 13 = .fin 100 := by
  constructor <;> decide!

/-- C5 (amended): with the configured period `p`, the RSI at row `t` of
an `n`-row series is undefined exactly when the window is incomplete
(`t + 1 < p`; note `where` replaces the leading `diff` hole by a literal
zero, so the window is already complete at row `p - 1`) or when *both*
period averages are zero (the `0/0` of a constant window); when only the
average loss is zero the RSI is the defined value `100`; and when the
average loss is nonzero it equals `100 - 100/(1 + avgGain/avgLoss)`,
the simple-moving-average form of the claim. -/
theorem c5_rsi_characterized (n p : ℕ) (close : ℕ → ℚ) (t : ℕ)
    (ht : t < n) (hp : 0 < p) :
    (t + 1 < p → calculate_rsi n close p t = .nan)
    ∧ (p ≤ t + 1 →
        ((calculate_rsi n close p t = .nan
            ↔ avgGainQ close p t = 0 ∧ avgLossQ close p t = 0)
         ∧ (avgLossQ close p t = 0 → avgGainQ close p t ≠ 0 →
              calculate_rsi n close p t = .fin 100)
         ∧ (avgLossQ close p t ≠ 0 →
              calculate_rsi n close p t
                = .fin (100 - 100 / (1 + avgGainQ close p t / avgLossQ close p t))))) := by
  refine ⟨calculate_rsi_incomplete n p close t, fun hw => ?_⟩
  have hkey : calculate_rsi n close p t
      = (if avgLossQ close p t = 0 then (if avgGainQ close p t = 0 then .nan else .fin 100)
         else .fin (100 - 100 / (1 + avgGainQ close p t / avgLossQ close p t))) := by
    unfold calculate_rsi
    rw [rsi_gain_fin n p close t ht hp hw, rsi_loss_fin n p close t ht hp hw]
    exact rsi_arith_cases _ _ (avgGainQ_nonneg close p t) (avgLossQ_nonneg close p t)
  rw [hkey]
  refine ⟨?_, ?_, ?_⟩
  · constructor
    · intro h
      by_cases hl : avgLossQ close p t = 0
      · by_cases hg : avgGainQ close p t = 0
        · exact ⟨hg, hl⟩
        · rw [if_pos hl, if_neg hg] at h; exact absurd h (by simp)
      · rw [if_neg hl] at h; exact absurd h (by simp)
    · rintro ⟨hg, hl⟩
      rw [if_pos hl, if_pos hg]
  · intro hl hg
    rw [if_pos hl, if_neg hg]
  · intro hl
    rw [if_neg hl]

/-- Witness for `c5_rsi_characterized` on the alternating series
`1, 2, 1` with period 2 at row 2: the averages are both `1/2` and the
formula applies. -/
theorem c5_rsi_characterized_witness :
    calculate_rsi 3 altClose 2 2
      = .fin (100 - 100 / (1 + avgGainQ altClose 2 2 / avgLossQ altClose 2 2)) :=
  (((c5_rsi_characterized 3 2 altClose 2 (by decide) (by decide)).2 (by decide)).2.2) (by decide)

/-! ## Helper lemmas for the list-level library calls and the variance -/

theorem calculate_rsi_list_getD (close : List ℚ) (period t : ℕ) (ht : t < close.length) :
    (calculate_rsi_list close period).getD t .nan
      = calculate_rsi close.length (fun i => close.getD i 0) period t := by
  unfold calculate_rsi_list
  rw [List.getD_eq_getElem?_getD, List.getElem?_map, List.getElem?_range ht]
  rfl

theorem calculate_rsi_list_length (close : List ℚ) (period : ℕ) :
    (calculate_rsi_list close period).length = close.length := by
  unfold calculate_rsi_list
  rw [List.length_map, List.length_range]

theorem sum_sq_dev (m : ℚ) (l : List ℚ) :
    (l.map (fun x => (x - m) ^ 2)).foldr (· + ·) 0
      = (l.map (fun x => x * x)).foldr (· + ·) 0 - 2 * m * (l.foldr (· + ·) 0)
        + (l.length : ℚ) * m ^ 2 := by
  induction l with
  | nil => simp
  | cons a as ih =>
      simp only [List.map_cons, List.foldr_cons, List.length_cons, ih]
      push_cast
      ring

/-- The running-sums sample variance is the centered sum of squared
deviations from the mean with divisor `length - 1`. -/
theorem varOfList_eq_centered (l : List ℚ) (h : 2 ≤ l.length) :
    varOfList l
      = (l.map (fun x => (x - meanOfList l) ^ 2)).foldr (· + ·) 0 / ((l.length : ℚ) - 1) := by
  have hn : (l.length : ℚ) ≠ 0 := Nat.cast_ne_zero.mpr (by omega)
  unfold varOfList meanOfList
  simp only [qDiv_eq, qSub_eq, qMul_eq, mkRat_natCast, foldr_qAdd_eq]
  rw [sum_sq_dev]
  congr 1
  field_simp
  ring

/-- The sample variance exceeds the population variance by the factor
`length/(length - 1)`. -/
theorem varOfList_eq_pop (l : List ℚ) (h : 2 ≤ l.length) :
    varOfList l = ((l.length : ℚ) / ((l.length : ℚ) - 1)) * popVarOfList l := by
  have hn : (l.length : ℚ) ≠ 0 := Nat.cast_ne_zero.mpr (by omega)
  have h2 : (2 : ℚ) ≤ (l.length : ℚ) := by exact_mod_cast h
  have hn1 : (l.length : ℚ) - 1 ≠ 0 := by
    intro hc
    rw [sub_eq_zero] at hc
    rw [hc] at h2
    norm_num at h2
  rw [varOfList_eq_centered l h]
  unfold popVarOfList
  field_simp
  ring

/-! ## C6: horizon validation -/

/-- C6 counterexample: there is no horizon check anywhere in the
target-generation stage.  At the out-of-contract horizon `H = 0` (which
the claim says must fail with `InvalidHorizon`) every label is computed
and defined: the return label degenerates to `0`, the direction label to
`0` (a price never exceeds itself) and the close label to the current
close. -/
theorem c6_no_invalid_horizon_check :
    target_return 2 0 closeFiveSeven 0 = .fin 0
    ∧ target_direction 2 0 closeFiveSeven 0 = 0
    ∧ target_close 2 0 closeFiveSeven 0 = .fin 5
    ∧ target_direction_multi 2 0 closeFiveSeven 0 = 0 := by
  refine ⟨by decide!, by decide!, by decide!, by decide!⟩

/-- C6 (amended): the target-generation stage never raises for *any*
integer horizon.  For `H ≥ 1` absence of future data yields missing
labels rather than an error: `Target_Close` at row `t` is the future
close when the bar at `t + H` exists and missing otherwise, and on the
trailing rows both `Target_Return` and `Target_Close` are missing.  For
`H < 1` the stage silently computes degenerate labels (see the
counterexample) instead of failing with `InvalidHorizon`. -/
theorem c6_targets_never_raise (n H : ℕ) (close : ℕ → ℚ) (t : ℕ)
    (_ht : t < n) (_hH : 1 ≤ H) :
    target_close n H close t = (if t + H < n then .fin (close (t + H)) else .nan)
    ∧ (n ≤ t + H → target_return n H close t = .nan ∧ target_close n H close t = .nan) := by
  refine ⟨target_close_eq n H close t, fun h => ⟨target_return_tail n H close t h, ?_⟩⟩
  rw [target_close_eq, if_neg (by omega)]

/-- Witness for `c6_targets_never_raise` on the two-bar series at its
final row. -/
theorem c6_targets_never_raise_witness :
    target_return 2 1 closeTwoBars 1 = .nan ∧ target_close 2 1 closeTwoBars 1 = .nan :=
  (c6_targets_never_raise 2 1 closeTwoBars 1 (by decide) (by decide)).2 (by decide)

/-! ## C7: input validation in the indicator library -/

/-- C7 counterexample: the indicator library performs no input
validation at all.  An empty close series makes `calculate_rsi` return
an empty series — a value, not an `InvalidInput` error — and
`calculate_atr` applied to high/low/close sequences of mismatched
lengths `2`, `1`, `3` returns a 3-entry series (pandas index alignment
fills the short sides with missing values), again with no error. -/
theorem c7_no_input_validation :
    calculate_rsi_list [] 14 = ([] : List FV)
    ∧ calculate_atr_list [1, 2] [1] [1, 2, 3] 1 = [.fin 0, .fin 1, .nan] := by
  constructor <;> decide!

/-- C7 (amended): the library never raises: empty input yields empty
output, mismatched lengths are index-aligned with missing entries, and —
the part of the claim that does hold — input that is shorter than the
requested window is not an error: the output keeps the input's length
and the unfulfilled-window entries are missing values. -/
theorem c7_short_input_not_error (close : List ℚ) (period : ℕ) (t : ℕ)
    (ht : t < close.length) (hshort : t + 1 < period) :
    (calculate_rsi_list close period).length = close.length
    ∧ (calculate_rsi_list close period).getD t .nan = .nan := by
  refine ⟨calculate_rsi_list_length close period, ?_⟩
  rw [calculate_rsi_list_getD close period t ht]
  exact calculate_rsi_incomplete _ _ _ _ hshort

/-- Witness for `c7_short_input_not_error` on a one-bar series with the
configured period 14. -/
theorem c7_short_input_not_error_witness :
    (calculate_rsi_list [5] 14).length = ([5] : List ℚ).length
    ∧ (calculate_rsi_list [5] 14).getD 0 .nan = .nan :=
  c7_short_input_not_error [5] 14 0 (by decide) (by decide)

/-! ## C8: the Bollinger standard deviation -/

/-- C8 counterexample: on the window `[0, 1]` (period 2) the source's
`rolling.std` squares to the *sample* variance `1/2` (divisor
`period - 1 = 1`), not the population variance `1/4` (divisor
`period = 2`) the claim specifies; the recorded payload of
`bollinger_std` is the variance, whose square root the code's value is,
and the square root preserves the difference. -/
theorem c8_bollinger_not_population :
    bollinger_std (fun t => if t = 0 then 0 else 1) 2 1 = .fin (varOfList [0, 1])
    ∧ varOfList [0, 1] = 1 / 2
    ∧ popVarOfList [0, 1] = 1 / 4
    ∧ varOfList [0, 1] ≠ popVarOfList [0, 1] := by
  refine ⟨by decide!, by decide!, by decide!, by decide!⟩

/-- C8 (amended): on every complete window the Bollinger computation
uses pandas' default *sample* standard deviation: the squared deviation
it computes equals the centered sum of squares divided by `period - 1`,
which is `period/(period - 1)` times the population variance the claim
asserts (upper/lower bands are mean `± k·std` as claimed, by
construction). -/
theorem c8_bollinger_variance_sample (l : List ℚ) (h : 2 ≤ l.length) :
    varOfList l
      = (l.map (fun x => (x - meanOfList l) ^ 2)).foldr (· + ·) 0 / ((l.length : ℚ) - 1)
    ∧ varOfList l = ((l.length : ℚ) / ((l.length : ℚ) - 1)) * popVarOfList l :=
  ⟨varOfList_eq_centered l h, varOfList_eq_pop l h⟩

/-- Witness for `c8_bollinger_variance_sample` at the window `[0, 1]`. -/
theorem c8_bollinger_variance_sample_witness :
    varOfList [0, 1]
      = (([0, 1] : List ℚ).map (fun x => (x - meanOfList [0, 1]) ^ 2)).foldr (· + ·) 0
          / ((([0, 1] : List ℚ).length : ℚ) - 1)
    ∧ varOfList [0, 1]
      = ((([0, 1] : List ℚ).length : ℚ) / ((([0, 1] : List ℚ).length : ℚ) - 1))
          * popVarOfList [0, 1] :=
  c8_bollinger_variance_sample [0, 1] (by decide)

/-! ## C9: the multi-class label on missing returns -/

/-- C9: wherever `Target_Return` is missing — in particular on every one
of the trailing `H` rows — every `np.select` condition compares against
a missing value and is false, so `Target_Direction_Multi` takes the
integer default `-2` (strong down); the column is integer-valued and
never missing by construction. -/
theorem c9_multi_defaults_on_missing (n H : ℕ) (close : ℕ → ℚ) (t : ℕ) :
    (target_return n H close t = .nan → target_direction_multi n H close t = -2)
    ∧ (n ≤ t + H → target_direction_multi n H close t = -2) := by
  have h1 : target_return n H close t = .nan → target_direction_multi n H close t = -2 := by
    intro h
    unfold target_direction_multi
    rw [h]
    rfl
  exact ⟨h1, fun h => h1 (target_return_tail n H close t h)⟩

/-- Witness for `c9_multi_defaults_on_missing` on the two-bar series at
its final row. -/
theorem c9_multi_defaults_on_missing_witness :
    target_direction_multi 2 1 closeTwoBars 1 = -2 :=
  (c9_multi_defaults_on_missing 2 1 closeTwoBars 1).2 (by decide)

/-! ## C10: the RSI flag columns -/

/-- C10: the `RSI_overbought` and `RSI_oversold` flags are always the
integers `0` or `1`, and both are `0` whenever the RSI at that row is
missing, because a comparison against a missing value is false before
the integer cast. -/
theorem c10_rsi_flags_total (n : ℕ) (close : ℕ → ℚ) (t : ℕ) :
    (rsi_overbought n close t = 0 ∨ rsi_overbought n close t = 1)
    ∧ (rsi_oversold n close t = 0 ∨ rsi_oversold n close t = 1)
    ∧ (calculate_rsi n close 14 t = .nan →
        rsi_overbought n close t = 0 ∧ rsi_oversold n close t = 0) := by
  refine ⟨?_, ?_, fun h => ?_⟩
  · unfold rsi_overbought
    split
    · exact Or.inr rfl
    · exact Or.inl rfl
  · unfold rsi_oversold
    split
    · exact Or.inr rfl
    · exact Or.inl rfl
  · unfold rsi_overbought rsi_oversold
    rw [h]
    exact ⟨rfl, rfl⟩

/-- Witness for `c10_rsi_flags_total` on a one-bar constant series,
whose RSI window is incomplete. -/
theorem c10_rsi_flags_total_witness :
    rsi_overbought 1 (fun _ => 2) 0 = 0 ∧ rsi_oversold 1 (fun _ => 2) 0 = 0 :=
  (c10_rsi_flags_total 1 (fun _ => 2) 0).2.2 (by decide)

/-! ## C4: the row-count law

The retained-row count of the spec scenario is established blockwise:
each lemma evaluates the `dropna` row filter over a contiguous block of
rows by kernel computation, and the blocks are then concatenated. -/

/-- Rows `0`-`198` all lack `SMA_200` (and other warm-up columns) and are dropped. -/
theorem incRows_block_warmup :
    ((List.range' 0 199 1).filter (fun t => !rowHasNaN incBars 1 t)).length = 0 := by
  decide!

/-- Rows `199`-`208` of the scenario have every column present. -/
theorem incRows_block_199 :
    ((List.range' 199 10 1).filter (fun t => !rowHasNaN incBars 1 t)).length = 10 := by
  decide!

/-- Rows `209`-`218` of the scenario have every column present. -/
theorem incRows_block_209 :
    ((List.range' 209 10 1).filter (fun t => !rowHasNaN incBars 1 t)).length = 10 := by
  decide!

/-- Rows `219`-`228` of the scenario have every column present. -/
theorem incRows_block_219 :
    ((List.range' 219 10 1).filter (fun t => !rowHasNaN incBars 1 t)).length = 10 := by
  decide!

/-- Rows `229`-`238` of the scenario have every column present. -/
theorem incRows_block_229 :
    ((List.range' 229 10 1).filter (fun t => !rowHasNaN incBars 1 t)).length = 10 := by
  decide!

/-- Rows `239`-`248` of the scenario have every column present. -/
theorem incRows_block_239 :
    ((List.range' 239 10 1).filter (fun t => !rowHasNaN incBars 1 t)).length = 10 := by
  decide!

/-- Rows `249`-`258` of the scenario have every column present. -/
theorem incRows_block_249 :
    ((List.range' 249 10 1).filter (fun t => !rowHasNaN incBars 1 t)).length = 10 := by
  decide!

/-- Rows `259`-`268` of the scenario have every column present. -/
theorem incRows_block_259 :
    ((List.range' 259 10 1).filter (fun t => !rowHasNaN incBars 1 t)).length = 10 := by
  decide!

/-- Rows `269`-`278` of the scenario have every column present. -/
theorem incRows_block_269 :
    ((List.range' 269 10 1).filter (fun t => !rowHasNaN incBars 1 t)).length = 10 := by
  decide!

/-- Rows `279`-`288` of the scenario have every column present. -/
theorem incRows_block_279 :
    ((List.range' 279 10 1).filter (fun t => !rowHasNaN incBars 1 t)).length = 10 := by
  decide!

/-- Rows `289`-`298` of the scenario have every column present. -/
theorem incRows_block_289 :
    ((List.range' 289 10 1).filter (fun t => !rowHasNaN incBars 1 t)).length = 10 := by
  decide!

/-- The final row lacks the forward-looking labels and is dropped. -/
theorem incRows_block_tail :
    ((List.range' 299 1 1).filter (fun t => !rowHasNaN incBars 1 t)).length = 0 := by
  decide!

theorem incRows_split :
    List.range 300
      = List.range' 0 199 1
        ++ (List.range' 199 10 1
        ++ (List.range' 209 10 1
        ++ (List.range' 219 10 1
        ++ (List.range' 229 10 1
        ++ (List.range' 239 10 1
        ++ (List.range' 249 10 1
        ++ (List.range' 259 10 1
        ++ (List.range' 269 10 1
        ++ (List.range' 279 10 1
        ++ (List.range' 289 10 1
        ++ (List.range' 299 1 1))))))))))) := by
  decide!

/-- The spec scenario retains exactly 100 rows. -/
theorem retainedRows_incBars : retainedRows incBars 1 = 100 := by
  show ((List.range 300).filter (fun t => !rowHasNaN incBars 1 t)).length = 100
  rw [incRows_split]
  simp only [List.filter_append, List.length_append]
  rw [incRows_block_warmup, incRows_block_199, incRows_block_209, incRows_block_219,
      incRows_block_229, incRows_block_239, incRows_block_249, incRows_block_259,
      incRows_block_269, incRows_block_279, incRows_block_289, incRows_block_tail]

/-- C4 counterexample: on a 300-row *constant-price* series with the
same configuration (a 200-period moving average configured, `H = 1`)
the claimed law `retained = 300 - 199 - 1 = 100` fails: RSI is the
`0/0` missing value on every row (both period averages are zero), so
`dropna` removes *every* row and the pipeline retains `0`. -/
theorem c4_rowcount_law_fails_on_constant_series :
    retainedRows constBars 1 = 0 ∧ (0 : ℕ) ≠ 300 - 199 - 1 := by
  refine ⟨by decide!, by norm_num⟩

/-- C4 (amended): the row-count law `retained = total - max warm-up - H`
holds for series on which every indicator is defined past the common
warm-up, as in the spec's end-to-end scenario: the 300-row strictly
increasing series with the 200-period moving average configured and
`H = 1` retains exactly `300 - 199 - 1 = 100` rows.  It is not a law of
the trimming step for *every* series: rows past the warm-up on which
some indicator is structurally undefined (for example RSI's `0/0` on a
constant window) are also dropped, so in general the retained count is
at most the claimed value (see the constant-series counterexample,
where it is `0`). -/
theorem c4_rowcount_spec_scenario :
    retainedRows incBars 1 = 100 ∧ 100 = 300 - 199 - 1 := by
  refine ⟨retainedRows_incBars, by norm_num⟩
